import Mathlib

/-!
# Verification of the go-workers SimpleDispatcher

A shallow embedding of the `SimpleDispatcher` coordination engine
(result collector, dispatch loop, task runner prologue, notify channel,
shutdown sequence) together with proofs of the specified properties.

Go machine integers (`int`, `int64`, `time.Duration`) are modelled as `Int`;
times are instants on an `Int` axis.  Channels of unit values are modelled
by their occupancy count.  Each long-lived goroutine loop is modelled by the
function computing one iteration of its body, and runs of the system by a
step relation closed under `Relation.ReflTransGen`.
-/

namespace GoWorkers

/-- Modelled from the spec: the dispatcher status labels
(`workers.DispatcherStatusWait/Process/Cancel`); the constants live in the
root `workers` package which is absent from the sources, and the spec gives
the status set {Wait, Process, Cancel}. -/
inductive DispatcherStatus where
  | wait
  | process
  | cancel
deriving DecidableEq, Repr

/-- Modelled from the spec: the worker status labels
(`workers.WorkerStatusWait/Process/Cancel`); the constants live in the root
`workers` package which is absent from the sources, and the spec gives the
worker status set {Wait, Process, Cancel}. -/
inductive WorkerStatus where
  | wait
  | process
  | cancel
deriving DecidableEq, Repr

/-- The `TaskStatus` numeric values, from the generated enumer file
(`_TaskStatusNameToValueMap`): Undefined 0, Wait 1, Process 2, Success 3,
Fail 4, RepeatWait 5, Cancel 6. -/
def TaskStatusUndefined : Int := 0

def TaskStatusWait : Int := 1

def TaskStatusProcess : Int := 2

def TaskStatusSuccess : Int := 3

def TaskStatusFail : Int := 4

def TaskStatusRepeatWait : Int := 5

def TaskStatusCancel : Int := 6

/-- `_TaskStatusName` from the generated enumer file. -/
def TaskStatusNameStr : String := "UndefinedWaitProcessSuccessFailRepeatWaitCancel"

/-- `_TaskStatusIndex` from the generated enumer file. -/
def TaskStatusIndexArr : List Nat := [0, 9, 13, 20, 27, 31, 41, 47]

/-- `_TaskStatusValues` from the generated enumer file. -/
def TaskStatusValues : List Int := [0, 1, 2, 3, 4, 5, 6]

/-- The Go slice expression `s[a:b]` on a string. -/
def goSubstring (s : String) (a b : Nat) : String :=
  ((s.toList.drop a).take (b - a)).asString

/-- `TaskStatus.String()` from the generated enumer file:
`_TaskStatusName[_TaskStatusIndex[i]:_TaskStatusIndex[i+1]]` guarded by
`i < 0 || i >= TaskStatus(len(_TaskStatusIndex)-1)`. -/
def TaskStatusString (i : Int) : String :=
  if i < 0 ∨ 7 ≤ i then "TaskStatus(" ++ toString i ++ ")"
  else goSubstring TaskStatusNameStr (TaskStatusIndexArr.getD i.toNat 0)
    (TaskStatusIndexArr.getD (i.toNat + 1) 0)

/-- Go `interface{}` values that flow through results (function results and
recovered panic values). -/
inductive GoValue where
  | nilValue
  | strVal (s : String)
  | intVal (n : Int)
deriving DecidableEq, Repr

/-- Go `error` values reaching the dispatcher: the two context errors and
errors created by `errors.New` (which includes task-function errors and the
dispatcher's own `errors.New("Panic recovered")`). -/
inductive GoError where
  | canceled
  | deadlineExceeded
  | errorsNew (msg : String)
deriving DecidableEq, Repr

/-- The `Error()` message of a `GoError`, with the Go standard library
messages for the two context errors. -/
def goErrorMessage : GoError → String
  | GoError.canceled => "context canceled"
  | GoError.deadlineExceeded => "context deadline exceeded"
  | GoError.errorsNew msg => msg

/-- `manager.TasksManagerItem` together with the policy fields of the
wrapped `workers.Task` that the dispatcher reads (`Repeats()`,
`RepeatInterval()`, `Timeout()`).  The manager package is absent from the
sources; the fields are those the dispatcher code accesses. -/
structure TasksManagerItem where
  id : Nat
  repeats : Int
  repeatInterval : Int
  timeout : Int
  attempts : Int
  status : Int
  allowStartAt : Option Int
  firstStartedAt : Option Int
  lastStartedAt : Option Int
  hasCancel : Bool
deriving DecidableEq, Repr

/-- `manager.WorkersManagerItem`: status, the current task (`SetTask`) and
the cancel handle (`SetCancel`), as accessed by the dispatcher code. -/
structure WorkersManagerItem where
  id : Nat
  status : WorkerStatus
  task : Option Nat
  hasCancel : Bool
deriving DecidableEq, Repr

/-- `SimpleDispatcherResult`: the result envelope. -/
structure SimpleDispatcherResult where
  workerItem : WorkersManagerItem
  taskItem : TasksManagerItem
  result : GoValue
  err : Option GoError
  cancel : Bool
deriving DecidableEq, Repr

/-- A Go channel of unit values, modelled by capacity and occupancy. -/
structure GoChan where
  cap : Nat
  len : Nat
deriving DecidableEq, Repr

/-- `make(chan struct{}, 1)` from `NewSimpleDispatcherWithContext`. -/
def allowExecuteTasksInitChan : GoChan := { cap := 1, len := 0 }

/-- `notifyAllowExecuteTasks`: send one value iff the dispatcher is in
Process and the channel is currently empty. -/
def notifyAllowExecuteTasks (dStatus : DispatcherStatus) (c : GoChan) : GoChan :=
  if dStatus = DispatcherStatus.process ∧ c.len = 0 then { c with len := c.len + 1 }
  else c

/-- The dispatcher state visible to the modelled loops: its status, the
workers manager (as the pool of pushed items), the tasks manager (as the
queue of pushed items), the notify channel, the `sync.WaitGroup` counter and
the current instant. -/
structure SimpleDispatcherState where
  status : DispatcherStatus
  workersPool : List WorkersManagerItem
  tasksQueue : List TasksManagerItem
  allowExecuteTasks : GoChan
  inFlight : Nat
  now : Int
deriving DecidableEq, Repr

/-- `d.tasks.Remove(item)`, modelled on the queue list: drop the entries
with the item's id. -/
def removeTaskById (l : List TasksManagerItem) (i : Nat) : List TasksManagerItem :=
  l.filter (fun t => decide (t.id ≠ i))

/-- The task update performed by `doResultCollector` on a non-cancelled
envelope for a non-cancelled task: status Fail/Success by the error, then,
when `repeats < 0 || attempts < repeats`, the `allow_start_at` stamp for a
positive repeat interval and status RepeatWait. -/
def collectTaskUpdate (t : TasksManagerItem) (err : Option GoError) (now : Int) :
    TasksManagerItem :=
  let t1 := { t with status := if err.isSome then TaskStatusFail else TaskStatusSuccess }
  if t1.repeats < 0 ∨ t1.attempts < t1.repeats then
    let t2 :=
      if 0 < t1.repeatInterval then { t1 with allowStartAt := some (now + t1.repeatInterval) }
      else t1
    { t2 with status := TaskStatusRepeatWait }
  else t1

/-- The condition of `doResultCollector`'s worker push:
`!result.cancel || !result.workerItem.IsStatus(WorkerStatusCancel)`. -/
def collectorPushWorkerCond (r : SimpleDispatcherResult) : Prop :=
  r.cancel = false ∨ r.workerItem.status ≠ WorkerStatus.cancel

instance (r : SimpleDispatcherResult) : Decidable (collectorPushWorkerCond r) := by
  unfold collectorPushWorkerCond
  infer_instance

/-- The worker update performed by `doResultCollector`: clear the cancel
handle, `SetTask(nil)`, and status Wait when the push condition holds. -/
def collectorWorkerUpdate (r : SimpleDispatcherResult) : WorkersManagerItem :=
  if collectorPushWorkerCond r then
    { r.workerItem with hasCancel := false, task := none, status := WorkerStatus.wait }
  else
    { r.workerItem with hasCancel := false, task := none }

/-- One iteration of the `doResultCollector` loop body on an incoming
envelope (lines 470-510 of the dispatcher): clear both cancel handles; if
the dispatcher is in Cancel, drop the envelope; otherwise clear the
worker's task, push the worker back unless the envelope was cancelled and
the worker is in Cancel, run the task retry/removal policy when neither the
envelope nor the task is cancelled, and publish the notify signal.  Returns
the dispatcher state together with the final worker and task items. -/
def doResultCollectorStep (d : SimpleDispatcherState) (r : SimpleDispatcherResult) :
    SimpleDispatcherState × WorkersManagerItem × TasksManagerItem :=
  let taskItem := { r.taskItem with hasCancel := false }
  let workerItem := collectorWorkerUpdate r
  if d.status = DispatcherStatus.cancel then
    (d, { r.workerItem with hasCancel := false }, taskItem)
  else
    let d2 :=
      if collectorPushWorkerCond r then
        { d with workersPool := d.workersPool ++ [workerItem] }
      else d
    if r.cancel = false ∧ taskItem.status ≠ TaskStatusCancel then
      let taskItem2 := collectTaskUpdate taskItem r.err d.now
      if taskItem.repeats < 0 ∨ taskItem.attempts < taskItem.repeats then
        ({ d2 with tasksQueue := d2.tasksQueue ++ [taskItem2],
                   allowExecuteTasks := notifyAllowExecuteTasks d2.status d2.allowExecuteTasks },
         workerItem, taskItem2)
      else
        ({ d2 with tasksQueue := removeTaskById d2.tasksQueue taskItem.id,
                   allowExecuteTasks := notifyAllowExecuteTasks d2.status d2.allowExecuteTasks },
         workerItem, taskItem2)
    else
      ({ d2 with allowExecuteTasks := notifyAllowExecuteTasks d2.status d2.allowExecuteTasks },
       workerItem, taskItem)

/-- The dispatcher state after `doResultCollector` processes an envelope. -/
def collectorOutState (d : SimpleDispatcherState) (r : SimpleDispatcherResult) :
    SimpleDispatcherState :=
  (doResultCollectorStep d r).1

/-- The worker item after `doResultCollector` processes an envelope. -/
def collectorOutWorker (d : SimpleDispatcherState) (r : SimpleDispatcherResult) :
    WorkersManagerItem :=
  (doResultCollectorStep d r).2.1

/-- The task item after `doResultCollector` processes an envelope. -/
def collectorOutTask (d : SimpleDispatcherState) (r : SimpleDispatcherResult) :
    TasksManagerItem :=
  (doResultCollectorStep d r).2.2

/-- Modelled from the spec: the workers manager's `Pull` returns one idle
(Wait) worker; the manager package is absent from the sources, and the spec
has only Wait workers eligible to be pulled. -/
def isWorkerIdle (w : WorkersManagerItem) : Bool :=
  decide (w.status = WorkerStatus.wait)

/-- Modelled from the spec: the tasks manager's `Pull` returns one pending
task whose `allow_start_at <= now`; the manager package is absent from the
sources. -/
def isTaskEligible (now : Int) (t : TasksManagerItem) : Bool :=
  match t.allowStartAt with
  | none => true
  | some a => decide (a ≤ now)

/-- Modelled from the spec: a manager's `Pull` as removal of the first
eligible element, list order standing in for the manager's oldest-first
order; `Push` re-appends. -/
def pullFirst (p : α → Bool) : List α → Option α × List α
  | [] => (none, [])
  | x :: xs =>
    if p x then (some x, xs)
    else ((pullFirst p xs).1, x :: (pullFirst p xs).2)

/-- The inner loop of `doExecuteTasks`, with the recursion bounded by a
fuel count (one task is consumed by every launching iteration, so
`ts.length` fuel always suffices): pull a worker and a task; when both
pulls succeed record the launched pair and loop; otherwise push back
whichever item was pulled and stop.  Returns the remaining pool, the
remaining queue, and the launched pairs. -/
def doExecuteTasksAux (now : Int) :
    Nat → List WorkersManagerItem → List TasksManagerItem →
    List WorkersManagerItem × List TasksManagerItem ×
      List (WorkersManagerItem × TasksManagerItem)
  | 0, ws, ts => (ws, ts, [])
  | fuel + 1, ws, ts =>
    match pullFirst isWorkerIdle ws, pullFirst (isTaskEligible now) ts with
    | (some w, ws2), (some t, ts2) =>
      let r := doExecuteTasksAux now fuel ws2 ts2
      (r.1, r.2.1, (w, t) :: r.2.2)
    | (some w, ws2), (none, _) => (ws2 ++ [w], ts, [])
    | (none, _), (some t, ts2) => (ws, ts2 ++ [t], [])
    | (none, _), (none, _) => (ws, ts, [])

/-- The inner loop of `doExecuteTasks` run to completion. -/
def doExecuteTasksLoop (now : Int) (ws : List WorkersManagerItem)
    (ts : List TasksManagerItem) :
    List WorkersManagerItem × List TasksManagerItem ×
      List (WorkersManagerItem × TasksManagerItem) :=
  doExecuteTasksAux now ts.length ws ts

/-- `doExecuteTasks`: return immediately unless the dispatcher is in
Process, otherwise run the pull/launch loop over the pool and the queue. -/
def doExecuteTasks (s : SimpleDispatcherState) :
    SimpleDispatcherState × List (WorkersManagerItem × TasksManagerItem) :=
  if s.status = DispatcherStatus.process then
    let r := doExecuteTasksLoop s.now s.workersPool s.tasksQueue
    ({ s with workersPool := r.1, tasksQueue := r.2.1 }, r.2.2)
  else (s, [])

/-- The task-item prologue of `doRunTask`: `SetAttempts(Attempts()+1)`,
status Process, `SetFirstStartedAt(now)` when the incremented attempts
equals 1, `SetLastStartedAt(now)`, and `SetCancel(ctxCancel)`. -/
def doRunTaskStartTask (t : TasksManagerItem) (now : Int) : TasksManagerItem :=
  let t1 := { t with attempts := t.attempts + 1 }
  let t2 := { t1 with status := TaskStatusProcess }
  let t3 := if t2.attempts = 1 then { t2 with firstStartedAt := some now } else t2
  let t4 := { t3 with lastStartedAt := some now }
  { t4 with hasCancel := true }

/-- The worker-item prologue of `doRunTask`: `SetTask(task)`, status
Process, and `SetCancel(ctxCancel)`. -/
def doRunTaskStartWorker (w : WorkersManagerItem) (taskId : Nat) : WorkersManagerItem :=
  { w with task := some taskId, status := WorkerStatus.process, hasCancel := true }

/-- The two ways the task function's execution inside the runner goroutine
can end: a normal return of `(result, err)` or a panic carrying a value. -/
inductive RunTaskOutcome where
  | returns (result : GoValue) (err : Option GoError)
  | panics (v : GoValue)
deriving DecidableEq, Repr

/-- The envelope the runner goroutine of `doRunTask` sends on its done
channel: the function's result and error on a normal return; on a panic the
deferred `recover` builds an envelope with `errors.New("Panic recovered")`
as the error and the recovered value as the result. -/
def runTaskGoroutineSend (w : WorkersManagerItem) (t : TasksManagerItem) :
    RunTaskOutcome → SimpleDispatcherResult
  | RunTaskOutcome.returns v e =>
    { workerItem := w, taskItem := t, result := v, err := e, cancel := false }
  | RunTaskOutcome.panics v =>
    { workerItem := w, taskItem := t, result := v,
      err := some (GoError.errorsNew "Panic recovered"), cancel := false }

/-- All envelopes the runner goroutine sends on its single-slot done
channel: exactly one per outcome (a propagated panic would send none, the
recover guarantees the send happens). -/
def runTaskGoroutineSends (w : WorkersManagerItem) (t : TasksManagerItem)
    (o : RunTaskOutcome) : List SimpleDispatcherResult :=
  [runTaskGoroutineSend w t o]

/-- The envelope `doRunTask` sends to `d.results` when the child context's
Done fires first: `err = ctx.Err()` and
`cancel = (ctx.Err() == context.Canceled)`. -/
def ctxDoneResult (w : WorkersManagerItem) (t : TasksManagerItem) (e : GoError) :
    SimpleDispatcherResult :=
  { workerItem := w, taskItem := t, result := GoValue.nilValue,
    err := some e, cancel := decide (e = GoError.canceled) }

/-- The body of `Run` after `<-d.ctx.Done()` fires, first phase: set the
dispatcher to Cancel and mark every managed worker and task Cancel.
Modelled from the spec for the task marking: the code passes the
workers-package Cancel constant (`setStatusTask(t, workers.WorkerStatusCancel)`)
whose numeric value lives outside the sources, and the spec states the
shutdown marks tasks Cancel, so the task status is set to `TaskStatusCancel`. -/
def shutdownMark (s : SimpleDispatcherState) : SimpleDispatcherState :=
  { s with status := DispatcherStatus.cancel,
           workersPool := s.workersPool.map fun w => { w with status := WorkerStatus.cancel },
           tasksQueue := s.tasksQueue.map fun t => { t with status := TaskStatusCancel } }

/-- The full shutdown tail of `Run`: the marking phase, then `d.wg.Wait()`
(modelled as the in-flight carrier count reaching zero), then status back
to Wait; `Run` then returns. -/
def runShutdown (s : SimpleDispatcherState) : SimpleDispatcherState :=
  let m := shutdownMark s
  { m with inFlight := 0, status := DispatcherStatus.wait }

/-- A Go `context.Context` as the dispatcher observes it: `Err()` is `none`
until the context is cancelled. -/
structure GoContext where
  err : Option GoError
deriving DecidableEq, Repr

/-- The `context.CancelFunc` of a cancellable context: after it runs,
`Err()` returns `context.Canceled` unless an error was already set. -/
def contextCancel (c : GoContext) : GoContext :=
  { err := some (c.err.getD GoError.canceled) }

/-- `SimpleDispatcher.Cancel`: run `d.ctxCancel()` and return
`d.ctx.Err()`; yields the context after cancellation and the returned
error. -/
def SimpleDispatcherCancel (c : GoContext) : GoContext × Option GoError :=
  let c2 := contextCancel c
  (c2, c2.err)

/-- Where a single task currently is during a run: in the tasks manager,
being executed, removed on terminal outcome, left out after a cancelled
envelope, or cancelled by `RemoveTask`. -/
inductive TaskLoc where
  | queued
  | running
  | removed
  | dropped
  | cancelled
deriving DecidableEq, Repr

/-- The state of one task item over a run. -/
structure TaskRunState where
  item : TasksManagerItem
  loc : TaskLoc
deriving DecidableEq, Repr

/-- One observable step of the dispatcher on a single task: `dispatch` is
the `doRunTask` prologue on a pulled task; `collect` is the result
collector on a non-cancelled envelope for a non-cancelled task, which
requeues exactly when `repeats < 0 || attempts < repeats` and removes the
task otherwise; `collectCancelled` is the collector's skip of a cancelled
envelope or cancelled task; `removeTask` is `RemoveTask` (or the shutdown
marking), which sets status Cancel. -/
inductive TaskStep : TaskRunState → TaskRunState → Prop where
  | dispatch (s : TaskRunState) (now : Int) (h : s.loc = TaskLoc.queued) :
      TaskStep s ⟨doRunTaskStartTask s.item now, TaskLoc.running⟩
  | collect (s : TaskRunState) (err : Option GoError) (now : Int)
      (h : s.loc = TaskLoc.running) (hc : s.item.status ≠ TaskStatusCancel) :
      TaskStep s ⟨collectTaskUpdate s.item err now,
        if s.item.repeats < 0 ∨ s.item.attempts < s.item.repeats then TaskLoc.queued
        else TaskLoc.removed⟩
  | collectCancelled (s : TaskRunState) (h : s.loc = TaskLoc.running) :
      TaskStep s ⟨{ s.item with hasCancel := false }, TaskLoc.dropped⟩
  | removeTask (s : TaskRunState) :
      TaskStep s ⟨{ s.item with status := TaskStatusCancel }, TaskLoc.cancelled⟩

/-- All states a task can reach over a run. -/
def ReachTask : TaskRunState → TaskRunState → Prop :=
  Relation.ReflTransGen TaskStep

/-- A dispatcher state in Process with empty containers, used to evaluate
the collector on concrete envelopes. -/
def exProcessState : SimpleDispatcherState :=
  { status := DispatcherStatus.process, workersPool := [], tasksQueue := [],
    allowExecuteTasks := allowExecuteTasksInitChan, inFlight := 1, now := 100 }

/-- A worker item currently executing a task. -/
def exBusyWorker : WorkersManagerItem :=
  { id := 1, status := WorkerStatus.process, task := some 7, hasCancel := true }

/-- A worker item in Cancel whose task completed normally. -/
def exCancelledWorker : WorkersManagerItem :=
  { id := 2, status := WorkerStatus.cancel, task := some 7, hasCancel := true }

/-- A task item after its first attempt, with one retry still allowed
(`repeats = 2`, `attempts = 1`) and a positive repeat interval. -/
def exRetryTask : TasksManagerItem :=
  { id := 7, repeats := 2, repeatInterval := 5, timeout := 0, attempts := 1,
    status := TaskStatusProcess, allowStartAt := none, firstStartedAt := some 3,
    lastStartedAt := some 3, hasCancel := true }

/-- A task item whose attempts have exhausted its repeats
(`repeats = 1`, `attempts = 1`). -/
def exExhaustedTask : TasksManagerItem :=
  { id := 8, repeats := 1, repeatInterval := 0, timeout := 10, attempts := 1,
    status := TaskStatusProcess, allowStartAt := none, firstStartedAt := some 3,
    lastStartedAt := some 3, hasCancel := true }

/-- A fresh task item with `repeats = 0` that has never been attempted. -/
def c2Task0 : TasksManagerItem :=
  { id := 9, repeats := 0, repeatInterval := 0, timeout := 0, attempts := 0,
    status := TaskStatusWait, allowStartAt := none, firstStartedAt := none,
    lastStartedAt := none, hasCancel := false }

/-- The `repeats = 0` task right after its dispatch at instant 0. -/
def c2Mid : TaskRunState := ⟨doRunTaskStartTask c2Task0 0, TaskLoc.running⟩

/-- The `repeats = 0` task after its successful result is collected:
removed, with one attempt on the counter. -/
def c2Final : TaskRunState :=
  ⟨collectTaskUpdate (doRunTaskStartTask c2Task0 0) none 0, TaskLoc.removed⟩

/-- A fresh task item with `repeats = 2` that has never been attempted. -/
def c2FreshRetry : TasksManagerItem :=
  { id := 10, repeats := 2, repeatInterval := 0, timeout := 0, attempts := 0,
    status := TaskStatusWait, allowStartAt := none, firstStartedAt := none,
    lastStartedAt := none, hasCancel := false }

/-- An envelope for a normally completed task on a worker that was moved to
Cancel before the result was collected: the envelope's cancel flag is
false while the worker's status is Cancel. -/
def c5Result : SimpleDispatcherResult :=
  { workerItem := exCancelledWorker, taskItem := exExhaustedTask,
    result := GoValue.strVal "ok", err := none, cancel := false }

/-- An envelope for a successfully retriable task. -/
def c1Result : SimpleDispatcherResult :=
  { workerItem := exBusyWorker, taskItem := exRetryTask,
    result := GoValue.strVal "ok", err := none, cancel := false }

/-- A recovered panic value. -/
def c8Val : GoValue := GoValue.strVal "boom"

theorem doRunTaskStartTask_attempts (t : TasksManagerItem) (now : Int) :
    (doRunTaskStartTask t now).attempts = t.attempts + 1 := by
  simp only [doRunTaskStartTask]
  split <;> rfl

theorem doRunTaskStartTask_status (t : TasksManagerItem) (now : Int) :
    (doRunTaskStartTask t now).status = TaskStatusProcess := by
  simp only [doRunTaskStartTask]
  split <;> rfl

theorem doRunTaskStartTask_last (t : TasksManagerItem) (now : Int) :
    (doRunTaskStartTask t now).lastStartedAt = some now := rfl

theorem doRunTaskStartTask_repeats (t : TasksManagerItem) (now : Int) :
    (doRunTaskStartTask t now).repeats = t.repeats := by
  simp only [doRunTaskStartTask]
  split <;> rfl

theorem doRunTaskStartTask_first (t : TasksManagerItem) (now : Int) :
    (doRunTaskStartTask t now).firstStartedAt =
      if t.attempts + 1 = 1 then some now else t.firstStartedAt := by
  simp only [doRunTaskStartTask]
  split <;> rfl

theorem collectTaskUpdate_attempts (t : TasksManagerItem) (err : Option GoError) (now : Int) :
    (collectTaskUpdate t err now).attempts = t.attempts := by
  simp only [collectTaskUpdate]
  split <;> (try split) <;> rfl

theorem collectTaskUpdate_first (t : TasksManagerItem) (err : Option GoError) (now : Int) :
    (collectTaskUpdate t err now).firstStartedAt = t.firstStartedAt := by
  simp only [collectTaskUpdate]
  split <;> (try split) <;> rfl

theorem collectTaskUpdate_repeats (t : TasksManagerItem) (err : Option GoError) (now : Int) :
    (collectTaskUpdate t err now).repeats = t.repeats := by
  simp only [collectTaskUpdate]
  split <;> (try split) <;> rfl

theorem collectTaskUpdate_status_noretry (t : TasksManagerItem) (err : Option GoError)
    (now : Int) (h : ¬ (t.repeats < 0 ∨ t.attempts < t.repeats)) :
    (collectTaskUpdate t err now).status =
      if err.isSome then TaskStatusFail else TaskStatusSuccess := by
  simp only [collectTaskUpdate]
  split
  next hh => exact absurd hh h
  next => rfl

theorem collectTaskUpdate_status_retry (t : TasksManagerItem) (err : Option GoError)
    (now : Int) (h : t.repeats < 0 ∨ t.attempts < t.repeats) :
    (collectTaskUpdate t err now).status = TaskStatusRepeatWait := by
  simp only [collectTaskUpdate]
  split
  next => rfl
  next hh => exact absurd h hh

theorem collectTaskUpdate_allow_retry_pos (t : TasksManagerItem) (err : Option GoError)
    (now : Int) (h : t.repeats < 0 ∨ t.attempts < t.repeats)
    (hi : 0 < t.repeatInterval) :
    (collectTaskUpdate t err now).allowStartAt = some (now + t.repeatInterval) := by
  simp only [collectTaskUpdate]
  split_ifs <;> simp_all

theorem collectTaskUpdate_allow_retry_nonpos (t : TasksManagerItem) (err : Option GoError)
    (now : Int) (h : t.repeats < 0 ∨ t.attempts < t.repeats)
    (hi : ¬ 0 < t.repeatInterval) :
    (collectTaskUpdate t err now).allowStartAt = t.allowStartAt := by
  simp only [collectTaskUpdate]
  split_ifs <;> simp_all

theorem collectorOutTask_eq (d : SimpleDispatcherState) (r : SimpleDispatcherResult)
    (hd : d.status ≠ DispatcherStatus.cancel)
    (hc : r.cancel = false)
    (ht : r.taskItem.status ≠ TaskStatusCancel) :
    collectorOutTask d r =
      collectTaskUpdate { r.taskItem with hasCancel := false } r.err d.now := by
  simp only [collectorOutTask, doResultCollectorStep]
  rw [if_neg hd, if_pos (show r.cancel = false ∧
    ({ r.taskItem with hasCancel := false } : TasksManagerItem).status ≠ TaskStatusCancel
    from ⟨hc, ht⟩)]
  split <;> rfl

theorem collectorOutWorker_eq (d : SimpleDispatcherState) (r : SimpleDispatcherResult)
    (hd : d.status ≠ DispatcherStatus.cancel) :
    collectorOutWorker d r = collectorWorkerUpdate r := by
  simp only [collectorOutWorker, doResultCollectorStep]
  rw [if_neg hd]
  split
  next => split <;> rfl
  next => rfl

/-- C1: when the dispatcher is not in Cancel and neither the envelope nor
the task is cancelled, the result collector sets the task's status to Fail
on a non-nil error and to Success otherwise; then, when
`repeats < 0 || attempts < repeats`, it stamps
`allow_start_at = now + repeat_interval` for a positive interval, sets
status RepeatWait and pushes the task back into the queue; otherwise it
removes the task from the queue. -/
theorem collector_task_retry_policy (d : SimpleDispatcherState)
    (r : SimpleDispatcherResult)
    (hd : d.status ≠ DispatcherStatus.cancel)
    (hc : r.cancel = false)
    (ht : r.taskItem.status ≠ TaskStatusCancel) :
    (¬ (r.taskItem.repeats < 0 ∨ r.taskItem.attempts < r.taskItem.repeats) →
      (collectorOutTask d r).status =
        (if r.err.isSome then TaskStatusFail else TaskStatusSuccess) ∧
      (collectorOutState d r).tasksQueue = removeTaskById d.tasksQueue r.taskItem.id) ∧
    ((r.taskItem.repeats < 0 ∨ r.taskItem.attempts < r.taskItem.repeats) →
      (collectorOutTask d r).status = TaskStatusRepeatWait ∧
      (collectorOutState d r).tasksQueue = d.tasksQueue ++ [collectorOutTask d r] ∧
      (0 < r.taskItem.repeatInterval →
        (collectorOutTask d r).allowStartAt = some (d.now + r.taskItem.repeatInterval)) ∧
      (¬ 0 < r.taskItem.repeatInterval →
        (collectorOutTask d r).allowStartAt = r.taskItem.allowStartAt)) := by
  have hT := collectorOutTask_eq d r hd hc ht
  constructor
  · intro h
    constructor
    · rw [hT]
      exact collectTaskUpdate_status_noretry _ _ _ h
    · simp only [collectorOutState, doResultCollectorStep]
      rw [if_neg hd, if_pos (show r.cancel = false ∧
        ({ r.taskItem with hasCancel := false } : TasksManagerItem).status ≠ TaskStatusCancel
        from ⟨hc, ht⟩), if_neg h]
      split <;> rfl
  · intro h
    refine ⟨?_, ?_, ?_, ?_⟩
    · rw [hT]
      exact collectTaskUpdate_status_retry _ _ _ h
    · rw [hT]
      simp only [collectorOutState, doResultCollectorStep]
      rw [if_neg hd, if_pos (show r.cancel = false ∧
        ({ r.taskItem with hasCancel := false } : TasksManagerItem).status ≠ TaskStatusCancel
        from ⟨hc, ht⟩), if_pos h]
      split <;> rfl
    · intro hi
      rw [hT]
      exact collectTaskUpdate_allow_retry_pos _ _ _ h hi
    · intro hi
      rw [hT]
      exact collectTaskUpdate_allow_retry_nonpos _ _ _ h hi

/-- Witness for C1: a successful envelope for a task with one retry left
is pushed back as RepeatWait with the interval stamp. -/
theorem collector_task_retry_policy_witness :
    (¬ (c1Result.taskItem.repeats < 0 ∨
        c1Result.taskItem.attempts < c1Result.taskItem.repeats) →
      (collectorOutTask exProcessState c1Result).status =
        (if c1Result.err.isSome then TaskStatusFail else TaskStatusSuccess) ∧
      (collectorOutState exProcessState c1Result).tasksQueue =
        removeTaskById exProcessState.tasksQueue c1Result.taskItem.id) ∧
    ((c1Result.taskItem.repeats < 0 ∨
        c1Result.taskItem.attempts < c1Result.taskItem.repeats) →
      (collectorOutTask exProcessState c1Result).status = TaskStatusRepeatWait ∧
      (collectorOutState exProcessState c1Result).tasksQueue =
        exProcessState.tasksQueue ++ [collectorOutTask exProcessState c1Result] ∧
      (0 < c1Result.taskItem.repeatInterval →
        (collectorOutTask exProcessState c1Result).allowStartAt =
          some (exProcessState.now + c1Result.taskItem.repeatInterval)) ∧
      (¬ 0 < c1Result.taskItem.repeatInterval →
        (collectorOutTask exProcessState c1Result).allowStartAt =
          c1Result.taskItem.allowStartAt)) :=
  collector_task_retry_policy exProcessState c1Result (by decide) (by decide) (by decide)

/-- C5 (amended): while the dispatcher is not in Cancel, the collector
clears the worker's current task, and re-pushes the worker with status
Wait exactly when the envelope was not cancelled or the worker is not in
Cancel; the worker is kept out of the pool only when the envelope was
cancelled and the worker's status is Cancel — a Cancel-status worker whose
envelope was not cancelled is set to Wait and reused. -/
theorem collector_worker_reuse_policy (d : SimpleDispatcherState)
    (r : SimpleDispatcherResult)
    (hd : d.status ≠ DispatcherStatus.cancel) :
    (collectorOutWorker d r).task = none ∧
    (collectorPushWorkerCond r →
      (collectorOutWorker d r).status = WorkerStatus.wait ∧
      (collectorOutState d r).workersPool = d.workersPool ++ [collectorOutWorker d r]) ∧
    (¬ collectorPushWorkerCond r →
      (collectorOutWorker d r).status = r.workerItem.status ∧
      (collectorOutState d r).workersPool = d.workersPool) := by
  have hW := collectorOutWorker_eq d r hd
  refine ⟨?_, ?_, ?_⟩
  · rw [hW]
    unfold collectorWorkerUpdate
    split <;> rfl
  · intro h
    constructor
    · rw [hW]
      unfold collectorWorkerUpdate
      rw [if_pos h]
    · rw [hW]
      simp only [collectorOutState, doResultCollectorStep]
      rw [if_neg hd, if_pos h]
      split
      next => split <;> rfl
      next => rfl
  · intro h
    constructor
    · rw [hW]
      unfold collectorWorkerUpdate
      rw [if_neg h]
    · simp only [collectorOutState, doResultCollectorStep]
      rw [if_neg hd, if_neg h]
      split
      next => split <;> rfl
      next => rfl

/-- Counterexample for C5 as stated: an envelope whose cancel flag is
false but whose worker is already in Cancel — the collector sets that
worker to Wait and pushes it back into the pool, so a Cancel-status worker
is reused. -/
theorem cancelled_worker_reused :
    c5Result.workerItem.status = WorkerStatus.cancel ∧
    (collectorOutWorker exProcessState c5Result).status = WorkerStatus.wait ∧
    collectorOutWorker exProcessState c5Result ∈
      (collectorOutState exProcessState c5Result).workersPool := by decide

/-- Witness for C5: a plainly completed envelope has its worker re-pushed
in Wait. -/
theorem collector_worker_reuse_policy_witness :
    (collectorOutWorker exProcessState c1Result).task = none ∧
    (collectorPushWorkerCond c1Result →
      (collectorOutWorker exProcessState c1Result).status = WorkerStatus.wait ∧
      (collectorOutState exProcessState c1Result).workersPool =
        exProcessState.workersPool ++ [collectorOutWorker exProcessState c1Result]) ∧
    (¬ collectorPushWorkerCond c1Result →
      (collectorOutWorker exProcessState c1Result).status = c1Result.workerItem.status ∧
      (collectorOutState exProcessState c1Result).workersPool =
        exProcessState.workersPool) :=
  collector_worker_reuse_policy exProcessState c1Result (by decide)

/-- C9: the notify channel is created with capacity exactly 1, and
`notifyAllowExecuteTasks` sends only when the channel's length is zero, so
the send never blocks (the occupancy stays strictly below the capacity at
the moment of the send) and repeated notifications coalesce (the call is
idempotent and the occupancy never exceeds 1). -/
theorem notify_channel_coalesces (st : DispatcherStatus) (c : GoChan) :
    allowExecuteTasksInitChan.cap = 1 ∧
    (c.len ≠ 0 → notifyAllowExecuteTasks st c = c) ∧
    ((notifyAllowExecuteTasks st c).len ≠ c.len →
      c.len = 0 ∧ (notifyAllowExecuteTasks st c).len = 1 ∧
      c.len < allowExecuteTasksInitChan.cap) ∧
    notifyAllowExecuteTasks st (notifyAllowExecuteTasks st c) =
      notifyAllowExecuteTasks st c := by
  refine ⟨rfl, ?_, ?_, ?_⟩ <;>
    · simp only [notifyAllowExecuteTasks, allowExecuteTasksInitChan]
      split_ifs <;> simp_all

/-- Witness for C9: on a full channel the notify call is a no-op. -/
theorem notify_channel_coalesces_witness :
    notifyAllowExecuteTasks DispatcherStatus.process { cap := 1, len := 1 } =
      { cap := 1, len := 1 } :=
  (notify_channel_coalesces DispatcherStatus.process { cap := 1, len := 1 }).2.1
    (by decide)

/-- C10: `Cancel()` cancels the root context and returns the context's
`Err()`, which is always non-nil after the cancel function ran, and is
`context.Canceled` whenever the context had not failed before. -/
theorem cancel_returns_nonnil_error (c : GoContext) :
    (SimpleDispatcherCancel c).2.isSome = true ∧
    (c.err = none → (SimpleDispatcherCancel c).2 = some GoError.canceled) := by
  unfold SimpleDispatcherCancel contextCancel
  cases c.err <;> simp

/-- Witness for C10: cancelling a live dispatcher context returns
`context.Canceled`. -/
theorem cancel_returns_nonnil_error_witness :
    (SimpleDispatcherCancel { err := none }).2 = some GoError.canceled :=
  (cancel_returns_nonnil_error { err := none }).2 rfl

/-- C8 (amended): a panicking task function is recovered by the runner
goroutine, which emits exactly one envelope, whose error is
`errors.New("Panic recovered")` — with a capital P, not the
"panic recovered" the claim states — and whose result field carries the
recovered panic value. -/
theorem panic_recovered_envelope (w : WorkersManagerItem) (t : TasksManagerItem)
    (v : GoValue) :
    runTaskGoroutineSends w t (RunTaskOutcome.panics v) =
      [{ workerItem := w, taskItem := t, result := v,
         err := some (GoError.errorsNew "Panic recovered"), cancel := false }] ∧
    (runTaskGoroutineSends w t (RunTaskOutcome.panics v)).length = 1 :=
  ⟨rfl, rfl⟩

/-- Counterexample for C8 as stated: the synthesized error's message is
"Panic recovered", not "panic recovered". -/
theorem panic_message_not_lowercase :
    (runTaskGoroutineSend exBusyWorker exRetryTask (RunTaskOutcome.panics c8Val)).err.map
        goErrorMessage = some "Panic recovered" ∧
    ¬ (runTaskGoroutineSend exBusyWorker exRetryTask (RunTaskOutcome.panics c8Val)).err.map
        goErrorMessage = some "panic recovered" := by
  constructor
  · rfl
  · intro h
    simp [runTaskGoroutineSend, goErrorMessage] at h

theorem collectorOutTask_cancel_eq (d : SimpleDispatcherState)
    (r : SimpleDispatcherResult)
    (hd : d.status ≠ DispatcherStatus.cancel)
    (hc : r.cancel = true) :
    collectorOutTask d r = { r.taskItem with hasCancel := false } := by
  simp only [collectorOutTask, doResultCollectorStep]
  rw [if_neg hd, if_neg (show ¬ (r.cancel = false ∧
    ({ r.taskItem with hasCancel := false } : TasksManagerItem).status ≠ TaskStatusCancel)
    from fun hand => by rw [hc] at hand; exact Bool.noConfusion hand.1)]

/-- C3 (amended): the final status of a task execution is classified by
failure cause as follows — a function-reported error yields Fail; a panic
yields Fail; elapse of the per-task timeout also yields Fail (the
envelope's error is the deadline-exceeded error, which is non-nil, and the
`TaskStatus` enumeration of this dispatcher has no FailByTimeout value at
all); parent-context cancellation marks the envelope cancelled, the
collector leaves the task's status untouched, and the task reaches Cancel
through the shutdown marking of `Run`. -/
theorem failure_status_classification
    (d s2 : SimpleDispatcherState) (w : WorkersManagerItem) (t : TasksManagerItem)
    (v : GoValue) (e : GoError)
    (hd : d.status ≠ DispatcherStatus.cancel)
    (ht : t.status ≠ TaskStatusCancel)
    (hx : 0 ≤ t.repeats) (hx2 : t.repeats ≤ t.attempts) :
    (collectorOutTask d (runTaskGoroutineSend w t (RunTaskOutcome.returns v (some e)))).status
      = TaskStatusFail ∧
    (collectorOutTask d (runTaskGoroutineSend w t (RunTaskOutcome.panics v))).status
      = TaskStatusFail ∧
    (collectorOutTask d (ctxDoneResult w t GoError.deadlineExceeded)).status
      = TaskStatusFail ∧
    (collectorOutTask d (ctxDoneResult w t GoError.canceled)).status = t.status ∧
    ((shutdownMark s2).tasksQueue.all fun x => decide (x.status = TaskStatusCancel)) = true := by
  have hnr : ¬ (t.repeats < 0 ∨ t.attempts < t.repeats) := by omega
  refine ⟨?_, ?_, ?_, ?_, ?_⟩
  · rw [collectorOutTask_eq d _ hd rfl ht]
    exact (collectTaskUpdate_status_noretry
      { (runTaskGoroutineSend w t (RunTaskOutcome.returns v (some e))).taskItem with
        hasCancel := false }
      (runTaskGoroutineSend w t (RunTaskOutcome.returns v (some e))).err d.now hnr).trans
      (by rfl)
  · rw [collectorOutTask_eq d _ hd rfl ht]
    exact (collectTaskUpdate_status_noretry
      { (runTaskGoroutineSend w t (RunTaskOutcome.panics v)).taskItem with
        hasCancel := false }
      (runTaskGoroutineSend w t (RunTaskOutcome.panics v)).err d.now hnr).trans
      (by rfl)
  · rw [collectorOutTask_eq d _ hd rfl ht]
    exact (collectTaskUpdate_status_noretry
      { (ctxDoneResult w t GoError.deadlineExceeded).taskItem with hasCancel := false }
      (ctxDoneResult w t GoError.deadlineExceeded).err d.now hnr).trans
      (by rfl)
  · rw [collectorOutTask_cancel_eq d _ hd rfl]
    rfl
  · simp [shutdownMark, List.all_map, Function.comp]

/-- Witness for C3: the classification at a concrete dispatcher state and
task whose retries are exhausted. -/
theorem failure_status_classification_witness :
    (collectorOutTask exProcessState (runTaskGoroutineSend exBusyWorker exExhaustedTask
      (RunTaskOutcome.returns c8Val (some (GoError.errorsNew "boom"))))).status
      = TaskStatusFail ∧
    (collectorOutTask exProcessState (runTaskGoroutineSend exBusyWorker exExhaustedTask
      (RunTaskOutcome.panics c8Val))).status = TaskStatusFail ∧
    (collectorOutTask exProcessState
      (ctxDoneResult exBusyWorker exExhaustedTask GoError.deadlineExceeded)).status
      = TaskStatusFail ∧
    (collectorOutTask exProcessState
      (ctxDoneResult exBusyWorker exExhaustedTask GoError.canceled)).status
      = exExhaustedTask.status ∧
    ((shutdownMark exProcessState).tasksQueue.all fun x =>
      decide (x.status = TaskStatusCancel)) = true :=
  failure_status_classification exProcessState exProcessState exBusyWorker
    exExhaustedTask c8Val (GoError.errorsNew "boom") (by decide) (by decide)
    (by decide) (by decide)

/-- Counterexample for C3 as stated: on a timeout envelope the collector
sets the task's status to Fail — whose enumer name is "Fail" — and no
value of the `TaskStatus` enumeration is named "FailByTimeout", so a
timeout cannot yield a FailByTimeout status. -/
theorem timeout_yields_fail_not_failbytimeout :
    (collectorOutTask exProcessState
      (ctxDoneResult exBusyWorker exExhaustedTask GoError.deadlineExceeded)).status =
      TaskStatusFail ∧
    TaskStatusString TaskStatusFail = "Fail" ∧
    (TaskStatusValues.all fun i => decide (TaskStatusString i ≠ "FailByTimeout")) = true := by
  refine ⟨by decide, by decide, by decide⟩

theorem pullFirst_none {p : α → Bool} {l l2 : List α}
    (h : pullFirst p l = (none, l2)) : l2 = l := by
  induction l generalizing l2 with
  | nil =>
    simp only [pullFirst] at h
    injection h with h1 h2
    exact h2.symm
  | cons x xs ih =>
    simp only [pullFirst] at h
    by_cases hx : p x
    · rw [if_pos hx] at h
      injection h with h1 h2
      exact Option.noConfusion h1
    · rw [if_neg hx] at h
      injection h with h1 h2
      have hx2 : pullFirst p xs = (none, (pullFirst p xs).2) := by
        rw [← h1]
      have h3 := ih hx2
      rw [← h2, h3]

theorem pullFirst_some {p : α → Bool} {l l2 : List α} {a : α}
    (h : pullFirst p l = (some a, l2)) :
    p a = true ∧ l2.length + 1 = l.length ∧ l.Perm (a :: l2) := by
  induction l generalizing l2 with
  | nil =>
    simp only [pullFirst] at h
    injection h with h1 h2
    exact Option.noConfusion h1
  | cons x xs ih =>
    simp only [pullFirst] at h
    by_cases hx : p x
    · rw [if_pos hx] at h
      injection h with h1 h2
      injection h1 with h1
      subst h1
      subst h2
      exact ⟨hx, by simp, List.Perm.refl _⟩
    · rw [if_neg hx] at h
      injection h with h1 h2
      have hx2 : pullFirst p xs = (some a, (pullFirst p xs).2) := by
        rw [← h1]
      obtain ⟨hp, hlen, hperm⟩ := ih hx2
      subst h2
      refine ⟨hp, by simp [← hlen], ?_⟩
      exact (hperm.cons x).trans (List.Perm.swap a x _)

theorem doExecuteTasksAux_succ (now : Int) (fuel : Nat)
    (ws : List WorkersManagerItem) (ts : List TasksManagerItem) :
    doExecuteTasksAux now (fuel + 1) ws ts =
      match pullFirst isWorkerIdle ws, pullFirst (isTaskEligible now) ts with
      | (some w, ws2), (some t, ts2) =>
        let r := doExecuteTasksAux now fuel ws2 ts2
        (r.1, r.2.1, (w, t) :: r.2.2)
      | (some w, ws2), (none, _) => (ws2 ++ [w], ts, [])
      | (none, _), (some t, ts2) => (ws, ts2 ++ [t], [])
      | (none, _), (none, _) => (ws, ts, []) := rfl

theorem doExecuteTasksAux_spec (now : Int) :
    ∀ (fuel : Nat) (ws : List WorkersManagerItem) (ts : List TasksManagerItem),
      ts.length ≤ fuel →
      ws.Perm ((doExecuteTasksAux now fuel ws ts).1 ++
        (doExecuteTasksAux now fuel ws ts).2.2.map Prod.fst) ∧
      ts.Perm ((doExecuteTasksAux now fuel ws ts).2.1 ++
        (doExecuteTasksAux now fuel ws ts).2.2.map Prod.snd) ∧
      ((pullFirst isWorkerIdle (doExecuteTasksAux now fuel ws ts).1).1 = none ∨
       (pullFirst (isTaskEligible now) (doExecuteTasksAux now fuel ws ts).2.1).1 = none) ∧
      ((doExecuteTasksAux now fuel ws ts).2.2.all fun q =>
        isWorkerIdle q.1 && isTaskEligible now q.2) = true := by
  intro fuel
  induction fuel with
  | zero =>
    intro ws ts hts
    have hts0 : ts = [] := List.eq_nil_of_length_eq_zero (Nat.le_zero.mp hts)
    subst hts0
    refine ⟨by simp [doExecuteTasksAux], by simp [doExecuteTasksAux], Or.inr ?_,
      by simp [doExecuteTasksAux]⟩
    simp [doExecuteTasksAux, pullFirst]
  | succ fuel ih =>
    intro ws ts hts
    cases hOw : (pullFirst isWorkerIdle ws).1 with
    | none =>
      have hw : pullFirst isWorkerIdle ws = (none, (pullFirst isWorkerIdle ws).2) := by
        rw [← hOw]
      cases hOt : (pullFirst (isTaskEligible now) ts).1 with
      | none =>
        have ht2 : pullFirst (isTaskEligible now) ts =
            (none, (pullFirst (isTaskEligible now) ts).2) := by
          rw [← hOt]
        rw [doExecuteTasksAux_succ, hw, ht2]
        exact ⟨by simp, by simp, Or.inl hOw, by simp⟩
      | some t =>
        have ht2 : pullFirst (isTaskEligible now) ts =
            (some t, (pullFirst (isTaskEligible now) ts).2) := by
          rw [← hOt]
        obtain ⟨hpt, hlent, hpermt⟩ := pullFirst_some ht2
        rw [doExecuteTasksAux_succ, hw, ht2]
        refine ⟨by simp, ?_, Or.inl hOw, by simp⟩
        simp only [List.map_nil, List.append_nil]
        exact hpermt.trans (List.perm_append_singleton t _).symm
    | some w =>
      have hw : pullFirst isWorkerIdle ws = (some w, (pullFirst isWorkerIdle ws).2) := by
        rw [← hOw]
      obtain ⟨hpw, hlenw, hpermw⟩ := pullFirst_some hw
      cases hOt : (pullFirst (isTaskEligible now) ts).1 with
      | none =>
        have ht2 : pullFirst (isTaskEligible now) ts =
            (none, (pullFirst (isTaskEligible now) ts).2) := by
          rw [← hOt]
        rw [doExecuteTasksAux_succ, hw, ht2]
        refine ⟨?_, by simp, Or.inr hOt, by simp⟩
        simp only [List.map_nil, List.append_nil]
        exact hpermw.trans (List.perm_append_singleton w _).symm
      | some t =>
        have ht2 : pullFirst (isTaskEligible now) ts =
            (some t, (pullFirst (isTaskEligible now) ts).2) := by
          rw [← hOt]
        obtain ⟨hpt, hlent, hpermt⟩ := pullFirst_some ht2
        have hfuel : (pullFirst (isTaskEligible now) ts).2.length ≤ fuel := by omega
        obtain ⟨P1, P2, P3, P4⟩ := ih (pullFirst isWorkerIdle ws).2
          (pullFirst (isTaskEligible now) ts).2 hfuel
        rw [doExecuteTasksAux_succ, hw, ht2]
        exact ⟨hpermw.trans ((P1.cons w).trans List.perm_middle.symm),
          hpermt.trans ((P2.cons t).trans List.perm_middle.symm),
          P3, by simp [hpw, hpt, P4]⟩

/-- C6: the dispatch step (when the dispatcher is in Process) repeatedly
pulls one idle worker and one eligible task; whenever both pulls succeed
the pair is launched and the loop continues; whenever at most one pull
succeeds the pulled item (if any) is pushed back and the loop exits.
Consequently the loop partitions the pool and the queue exactly into the
launched pairs plus the remaining items (nothing is lost or duplicated),
it terminates only when no idle worker or no eligible task remains, and
every launched pair consists of an idle worker and an eligible task. -/
theorem dispatch_loop_pairing (now : Int) (ws : List WorkersManagerItem)
    (ts : List TasksManagerItem) :
    ws.Perm ((doExecuteTasksLoop now ws ts).1 ++
      (doExecuteTasksLoop now ws ts).2.2.map Prod.fst) ∧
    ts.Perm ((doExecuteTasksLoop now ws ts).2.1 ++
      (doExecuteTasksLoop now ws ts).2.2.map Prod.snd) ∧
    ((pullFirst isWorkerIdle (doExecuteTasksLoop now ws ts).1).1 = none ∨
     (pullFirst (isTaskEligible now) (doExecuteTasksLoop now ws ts).2.1).1 = none) ∧
    ((doExecuteTasksLoop now ws ts).2.2.all fun q =>
      isWorkerIdle q.1 && isTaskEligible now q.2) = true :=
  doExecuteTasksAux_spec now ts.length ws ts le_rfl

theorem taskStep_first_inv {s s2 : TaskRunState} (h : TaskStep s s2)
    (inv : 0 ≤ s.item.attempts ∧ (s.item.attempts = 0 ↔ s.item.firstStartedAt = none)) :
    0 ≤ s2.item.attempts ∧ (s2.item.attempts = 0 ↔ s2.item.firstStartedAt = none) := by
  obtain ⟨h0, hiff⟩ := inv
  cases h with
  | dispatch now hq =>
    constructor
    · rw [doRunTaskStartTask_attempts]
      omega
    · rw [doRunTaskStartTask_attempts, doRunTaskStartTask_first]
      constructor
      · intro hx
        exact absurd hx (by omega)
      · intro hx
        by_cases hone : s.item.attempts + 1 = 1
        · rw [if_pos hone] at hx
          cases hx
        · rw [if_neg hone] at hx
          have h2 := hiff.2 hx
          omega
  | collect err now hrl hc =>
    constructor
    · rw [collectTaskUpdate_attempts]
      exact h0
    · rw [collectTaskUpdate_attempts, collectTaskUpdate_first]
      exact hiff
  | collectCancelled hrl => exact ⟨h0, hiff⟩
  | removeTask => exact ⟨h0, hiff⟩

theorem taskStep_retry_inv {R : Int} {s s2 : TaskRunState} (h : TaskStep s s2)
    (inv : s.item.repeats = R ∧
      (0 ≤ R → s.item.attempts ≤ max R 1 ∧
        (s.loc = TaskLoc.queued → s.item.attempts = 0 ∨ s.item.attempts < R)) ∧
      (R < 0 → s.loc ≠ TaskLoc.removed)) :
    s2.item.repeats = R ∧
      (0 ≤ R → s2.item.attempts ≤ max R 1 ∧
        (s2.loc = TaskLoc.queued → s2.item.attempts = 0 ∨ s2.item.attempts < R)) ∧
      (R < 0 → s2.loc ≠ TaskLoc.removed) := by
  obtain ⟨hrep, hpos, hneg⟩ := inv
  cases h with
  | dispatch now hq =>
    refine ⟨by rw [doRunTaskStartTask_repeats]; exact hrep, ?_, ?_⟩
    · intro hR
      obtain ⟨hle, hqd⟩ := hpos hR
      constructor
      · rw [doRunTaskStartTask_attempts]
        rcases hqd hq with h0 | hlt
        · rw [h0]
          exact le_trans (by omega) (le_max_right R 1)
        · calc s.item.attempts + 1 ≤ R := by omega
            _ ≤ max R 1 := le_max_left R 1
      · intro hx
        exact TaskLoc.noConfusion hx
    · intro _ hx
      exact TaskLoc.noConfusion hx
  | collect err now hrl hc =>
    refine ⟨by rw [collectTaskUpdate_repeats]; exact hrep, ?_, ?_⟩
    · intro hR
      obtain ⟨hle, _⟩ := hpos hR
      refine ⟨by rw [collectTaskUpdate_attempts]; exact hle, ?_⟩
      intro hq2
      rw [collectTaskUpdate_attempts]
      by_cases hcond : s.item.repeats < 0 ∨ s.item.attempts < s.item.repeats
      · rcases hcond with hneg2 | hlt
        · rw [hrep] at hneg2
          omega
        · right
          rw [← hrep]
          exact hlt
      · exfalso
        have hq3 : (if s.item.repeats < 0 ∨ s.item.attempts < s.item.repeats
            then TaskLoc.queued else TaskLoc.removed) = TaskLoc.queued := hq2
        rw [if_neg hcond] at hq3
        exact TaskLoc.noConfusion hq3
    · intro hR
      have hcond : s.item.repeats < 0 ∨ s.item.attempts < s.item.repeats :=
        Or.inl (by rw [hrep]; exact hR)
      intro hx
      have hx2 : (if s.item.repeats < 0 ∨ s.item.attempts < s.item.repeats
          then TaskLoc.queued else TaskLoc.removed) = TaskLoc.removed := hx
      rw [if_pos hcond] at hx2
      exact TaskLoc.noConfusion hx2
  | collectCancelled hrl =>
    refine ⟨hrep, ?_, ?_⟩
    · intro hR
      exact ⟨(hpos hR).1, fun hq => TaskLoc.noConfusion hq⟩
    · intro _ hx
      exact TaskLoc.noConfusion hx
  | removeTask =>
    refine ⟨hrep, ?_, ?_⟩
    · intro hR
      exact ⟨(hpos hR).1, fun hq => TaskLoc.noConfusion hq⟩
    · intro _ hx
      exact TaskLoc.noConfusion hx

/-- C2 (amended): over any run of the dispatcher on a fresh task, a task
with `repeats = N ≥ 0` is attempted at most `max N 1` times — with
`repeats = 0` the first attempt still happens, so the claim's bound of N
fails at N = 0 — and a task with negative repeats is never removed by the
retry logic, so its retries continue until the task or the dispatcher is
cancelled. -/
theorem retry_bound (t0 : TasksManagerItem) (s : TaskRunState)
    (h0 : t0.attempts = 0)
    (hr : ReachTask ⟨t0, TaskLoc.queued⟩ s) :
    (0 ≤ t0.repeats → s.item.attempts ≤ max t0.repeats 1) ∧
    (t0.repeats < 0 → s.loc ≠ TaskLoc.removed) := by
  have hr2 : Relation.ReflTransGen TaskStep ⟨t0, TaskLoc.queued⟩ s := hr
  have hinv : s.item.repeats = t0.repeats ∧
      (0 ≤ t0.repeats → s.item.attempts ≤ max t0.repeats 1 ∧
        (s.loc = TaskLoc.queued → s.item.attempts = 0 ∨ s.item.attempts < t0.repeats)) ∧
      (t0.repeats < 0 → s.loc ≠ TaskLoc.removed) := by
    induction hr2 with
    | refl =>
      refine ⟨rfl, ?_, ?_⟩
      · intro hR
        constructor
        · show t0.attempts ≤ max t0.repeats 1
          rw [h0]
          exact le_trans (by omega) (le_max_right t0.repeats 1)
        · intro _
          left
          exact h0
      · intro _ hx
        exact TaskLoc.noConfusion hx
    | tail hsteps hstep ih => exact taskStep_retry_inv hstep (ih hsteps)
  exact ⟨fun hR => (hinv.2.1 hR).1, hinv.2.2⟩

/-- Witness for C2: a fresh two-repeat task at the start of a run is
within the bound. -/
theorem retry_bound_witness :
    (0 ≤ c2FreshRetry.repeats →
      (⟨c2FreshRetry, TaskLoc.queued⟩ : TaskRunState).item.attempts ≤
        max c2FreshRetry.repeats 1) ∧
    (c2FreshRetry.repeats < 0 →
      (⟨c2FreshRetry, TaskLoc.queued⟩ : TaskRunState).loc ≠ TaskLoc.removed) :=
  retry_bound c2FreshRetry ⟨c2FreshRetry, TaskLoc.queued⟩ (by decide)
    Relation.ReflTransGen.refl

/-- Counterexample for C2 as stated: a task with `repeats = 0` is
dispatched once and then removed, reaching `attempts = 1 > 0 = repeats`,
so "attempted at most N times" fails at N = 0. -/
theorem zero_repeats_attempted_once :
    ReachTask ⟨c2Task0, TaskLoc.queued⟩ c2Final ∧
    c2Task0.repeats = 0 ∧
    c2Final.item.attempts = 1 ∧
    ¬ c2Final.item.attempts ≤ c2Task0.repeats := by
  refine ⟨?_, by decide, by decide, by decide⟩
  have h1 : TaskStep ⟨c2Task0, TaskLoc.queued⟩ c2Mid :=
    TaskStep.dispatch ⟨c2Task0, TaskLoc.queued⟩ 0 rfl
  have h2 : TaskStep c2Mid c2Final := by
    have h := TaskStep.collect c2Mid none 0 rfl (by decide)
    have he : (⟨collectTaskUpdate c2Mid.item none 0,
        if c2Mid.item.repeats < 0 ∨ c2Mid.item.attempts < c2Mid.item.repeats
        then TaskLoc.queued else TaskLoc.removed⟩ : TaskRunState) = c2Final := by decide
    exact he ▸ h
  exact Relation.ReflTransGen.tail (Relation.ReflTransGen.single h1) h2

/-- C7: every dispatch of a task marks it Process, increments its attempts
counter by exactly one, stamps `last_started_at`, and stamps
`first_started_at` exactly when the incremented attempts equals 1; over
any run starting from a fresh task, `attempts = 0` holds iff
`first_started_at` is unset. -/
theorem dispatch_stamps_attempts (t : TasksManagerItem) (now : Int)
    (t0 : TasksManagerItem) (s : TaskRunState)
    (h0 : t0.attempts = 0) (hf0 : t0.firstStartedAt = none)
    (hr : ReachTask ⟨t0, TaskLoc.queued⟩ s) :
    ((doRunTaskStartTask t now).status = TaskStatusProcess ∧
     (doRunTaskStartTask t now).attempts = t.attempts + 1 ∧
     (doRunTaskStartTask t now).lastStartedAt = some now ∧
     ((doRunTaskStartTask t now).attempts = 1 →
       (doRunTaskStartTask t now).firstStartedAt = some now) ∧
     ((doRunTaskStartTask t now).attempts ≠ 1 →
       (doRunTaskStartTask t now).firstStartedAt = t.firstStartedAt)) ∧
    (s.item.attempts = 0 ↔ s.item.firstStartedAt = none) := by
  constructor
  · refine ⟨doRunTaskStartTask_status t now, doRunTaskStartTask_attempts t now,
      doRunTaskStartTask_last t now, ?_, ?_⟩
    · intro h1
      rw [doRunTaskStartTask_attempts] at h1
      rw [doRunTaskStartTask_first, if_pos h1]
    · intro h1
      rw [doRunTaskStartTask_attempts] at h1
      rw [doRunTaskStartTask_first, if_neg h1]
  · have hr2 : Relation.ReflTransGen TaskStep ⟨t0, TaskLoc.queued⟩ s := hr
    have hinv : 0 ≤ s.item.attempts ∧
        (s.item.attempts = 0 ↔ s.item.firstStartedAt = none) := by
      induction hr2 with
      | refl =>
        constructor
        · show (0 : Int) ≤ t0.attempts
          omega
        · show t0.attempts = 0 ↔ t0.firstStartedAt = none
          simp [h0, hf0]
      | tail hsteps hstep ih => exact taskStep_first_inv hstep (ih hsteps)
    exact hinv.2

/-- Witness for C7: the stamps at a concrete dispatch and the biconditional
at the start state of a fresh task. -/
theorem dispatch_stamps_attempts_witness :
    ((doRunTaskStartTask c2FreshRetry 5).status = TaskStatusProcess ∧
     (doRunTaskStartTask c2FreshRetry 5).attempts = c2FreshRetry.attempts + 1 ∧
     (doRunTaskStartTask c2FreshRetry 5).lastStartedAt = some 5 ∧
     ((doRunTaskStartTask c2FreshRetry 5).attempts = 1 →
       (doRunTaskStartTask c2FreshRetry 5).firstStartedAt = some 5) ∧
     ((doRunTaskStartTask c2FreshRetry 5).attempts ≠ 1 →
       (doRunTaskStartTask c2FreshRetry 5).firstStartedAt = c2FreshRetry.firstStartedAt)) ∧
    ((⟨c2FreshRetry, TaskLoc.queued⟩ : TaskRunState).item.attempts = 0 ↔
      (⟨c2FreshRetry, TaskLoc.queued⟩ : TaskRunState).item.firstStartedAt = none) :=
  dispatch_stamps_attempts c2FreshRetry 5 c2FreshRetry ⟨c2FreshRetry, TaskLoc.queued⟩
    (by decide) (by decide) Relation.ReflTransGen.refl

/-- C4: when the parent context's Done fires inside `Run`, the dispatcher
is set to Cancel, every managed worker and every managed task is set to
Cancel, the in-flight carriers are drained (`wg.Wait`), and the status
goes back to Wait before `Run` returns. -/
theorem run_shutdown_sequence (s : SimpleDispatcherState) :
    (shutdownMark s).status = DispatcherStatus.cancel ∧
    ((shutdownMark s).workersPool.all fun w =>
      decide (w.status = WorkerStatus.cancel)) = true ∧
    ((shutdownMark s).tasksQueue.all fun t =>
      decide (t.status = TaskStatusCancel)) = true ∧
    (shutdownMark s).workersPool.length = s.workersPool.length ∧
    (shutdownMark s).tasksQueue.length = s.tasksQueue.length ∧
    (runShutdown s).inFlight = 0 ∧
    (runShutdown s).status = DispatcherStatus.wait ∧
    ((runShutdown s).workersPool.all fun w =>
      decide (w.status = WorkerStatus.cancel)) = true ∧
    ((runShutdown s).tasksQueue.all fun t =>
      decide (t.status = TaskStatusCancel)) = true := by
  unfold runShutdown shutdownMark
  simp [List.all_map, Function.comp]

end GoWorkers
